import Mathlib

/-!
Shallow embedding of the Customer-Recommendation-Engine pipeline
(`Agentic_workflow_v6.4.py`, `Agentic_workflow_v7.0.py`, `Agentic_workflow_v7.1.py`).

Similarity scores and vector components are modelled as rationals (`ℚ`);
the Astra DB collections are modelled as an environment (`Env`) mapping a
customer id to its `userinterests` documents and a query vector to the
(ordered) response of the `advertisements` similarity search.  Python
exceptions are modelled with `Except` / `Option`; HTTP error statuses with
`Except ℕ`.
-/

namespace CustomerRec

/-- Decidable equality for `Except`, so concrete runs can be checked by
`decide`. -/
instance {ε α : Type} [DecidableEq ε] [DecidableEq α] : DecidableEq (Except ε α) := fun x y =>
  match x, y with
  | Except.error a, Except.error b =>
    if h : a = b then Decidable.isTrue (by rw [h])
    else Decidable.isFalse (by intro hc; injection hc with h2; exact h h2)
  | Except.error _, Except.ok _ => Decidable.isFalse (fun hc => Except.noConfusion hc)
  | Except.ok _, Except.error _ => Decidable.isFalse (fun hc => Except.noConfusion hc)
  | Except.ok a, Except.ok b =>
    if h : a = b then Decidable.isTrue (by rw [h])
    else Decidable.isFalse (by intro hc; injection hc with h2; exact h h2)

/-- An advertisement document as returned by the similarity search
(projection `{product, video_link}` plus `$similarity`). -/
structure Ad where
  product : String
  video_link : String
  similarity : ℚ
deriving DecidableEq, Repr

/-- One candidate match as built by the collection loop:
`{"url": ..., "product": ..., "score": ..., "vector_idx": ...}`. -/
structure Candidate where
  url : String
  product : String
  score : ℚ
  vector_idx : ℕ
deriving DecidableEq, Repr

/-- The externally visible recommendation shape `{url, product, score}`
(pydantic model `Recommendation`). -/
structure Recommendation where
  url : String
  product : String
  score : ℚ
deriving DecidableEq, Repr

/-- Projection dropping the originating-vector index. -/
def Candidate.toRec (c : Candidate) : Recommendation :=
  { url := c.url, product := c.product, score := c.score }

/-- `SIMILARITY_THRESHOLD = 0.7` in `agent_3_node` (written with
`Rat.divInt` so that concrete runs evaluate by kernel reduction). -/
def SIMILARITY_THRESHOLD : ℚ := Rat.divInt 7 10

/-- `DEFAULT_AD_URL` in `agent_3_node` (threshold-validator fallback). -/
def DEFAULT_AD_URL : String := "https://www.youtube.com/watch?v=default_ad&autoplay=1&mute=1"

/-- `DEFAULT_PRODUCT` in `agent_3_node`. -/
def DEFAULT_PRODUCT : String := "Generic Product"

/-- The fixed URL produced by `error_handler_node`. -/
def DEFAULT_VIDEO_URL : String := "https://www.youtube.com/watch?v=default_video&autoplay=1&mute=1"

/-- The query parameters appended to a non-empty `video_link`. -/
def AUTOPLAY_SUFFIX : String := "&autoplay=1&mute=1"

/-- `ad.get("video_link", "") + "&autoplay=1&mute=1" if ad.get("video_link") else ""`. -/
def adPlayUrl (ad : Ad) : String :=
  if ad.video_link ≠ "" then ad.video_link ++ AUTOPLAY_SUFFIX else ""

/-- Inner loop of the per-vector collection (v7.1 lines 141-156, v7.0 lines
110-125, v6.4 lines 559-574): walk the query's ads in rank order, skip a
product already seen in this query, keep ads with a non-empty playback url,
tag with the originating-vector index.  `seen` models the `seen_products`
set (a product is added only when a candidate is appended, exactly as in
the source). -/
def vectorRecsGo (idx : ℕ) (seen : List String) : List Ad → List Candidate
  | [] => []
  | ad :: rest =>
    if ad.product ∈ seen then vectorRecsGo idx seen rest
    else if adPlayUrl ad ≠ "" then
      { url := adPlayUrl ad, product := ad.product, score := ad.similarity,
        vector_idx := idx } :: vectorRecsGo idx (seen ++ [ad.product]) rest
    else vectorRecsGo idx seen rest

/-- Candidates contributed by one similarity query (`vector_recommendations`). -/
def vectorRecs (idx : ℕ) (ads : List Ad) : List Candidate :=
  vectorRecsGo idx [] ads

/-- The `for idx, ... in enumerate(...)` collection loop over the per-vector
query responses, accumulating `all_recommendations`.  A query returning
zero ads contributes nothing (`if not top_ads: continue`) and the loop
moves on to the next vector. -/
def collectGo (idx : ℕ) : List (List Ad) → List Candidate
  | [] => []
  | ads :: rest => vectorRecs idx ads ++ collectGo (idx + 1) rest

/-- The merged candidate pool (`all_recommendations`) for a run whose
per-vector query responses are `queries`. -/
def collectPool (queries : List (List Ad)) : List Candidate :=
  collectGo 0 queries

/-- Variant of the collection loop in which an individual similarity query
may raise (`none`).  The source wraps no `try`/`except` around the
individual `find` call, so a raised exception propagates out of the loop
at once: the whole collection step fails and the remaining vectors are
never queried. -/
def collectGoE (idx : ℕ) : List (Option (List Ad)) → Option (List Candidate)
  | [] => some []
  | none :: _ => none
  | some ads :: rest => (collectGoE (idx + 1) rest).map (vectorRecs idx ads ++ ·)

/-- `perform_selection_approach` (v7.0 lines 92-138): collect the pool and
raise `HTTPException(404, "No advertisements found across all vectors
(Selection Approach)")` when it is empty.  The error is the HTTP status. -/
def performSelectionApproach (queries : List (List Ad)) : Except ℕ (List Candidate) :=
  let pool := collectPool queries
  if pool = [] then Except.error 404 else Except.ok pool

/-- The ordering realised by
`sort(key=lambda x: (x["score"], -x["vector_idx"]), reverse=True)`:
`a` may precede `b` iff `(b.score, -b.vector_idx) ≤ (a.score, -a.vector_idx)`
lexicographically, i.e. descending score with ties broken towards the
lower originating-vector index. -/
def sortRel (a b : Candidate) : Prop :=
  b.score < a.score ∨ (b.score = a.score ∧ a.vector_idx ≤ b.vector_idx)

instance : DecidableRel sortRel := fun a b => by unfold sortRel; infer_instance

instance : IsTotal Candidate sortRel where
  total a b := by
    unfold sortRel
    rcases lt_trichotomy a.score b.score with h | h | h
    · exact Or.inr (Or.inl h)
    · rcases Nat.le_total a.vector_idx b.vector_idx with hi | hi
      · exact Or.inl (Or.inr ⟨h.symm, hi⟩)
      · exact Or.inr (Or.inr ⟨h, hi⟩)
    · exact Or.inl (Or.inl h)

instance : IsTrans Candidate sortRel where
  trans a b c hab hbc := by
    unfold sortRel at *
    rcases hab with hab | ⟨hab, hab2⟩ <;> rcases hbc with hbc | ⟨hbc, hbc2⟩
    · exact Or.inl (hbc.trans hab)
    · exact Or.inl (hbc ▸ hab)
    · exact Or.inl (hab ▸ hbc)
    · exact Or.inr ⟨hbc.trans hab, hab2.trans hbc2⟩

/-- Python's `list.sort` is stable, and with `reverse=True` equal keys
keep their original order, so the sorted pool is determined by the key
order alone; it is modelled by a (stable) insertion sort under `sortRel`. -/
def sortRecs (l : List Candidate) : List Candidate :=
  List.insertionSort sortRel l

/-- The pool-wide product-deduplication loop (`seen_products` /
`deduplicated_recommendations`): keep the first occurrence of each product
while walking the (already sorted) list. -/
def dedupGo (seen : List String) : List Candidate → List Candidate
  | [] => []
  | c :: rest =>
    if c.product ∈ seen then dedupGo seen rest
    else c :: dedupGo (seen ++ [c.product]) rest

/-- `deduplicated_recommendations` built from a sorted pool. -/
def dedupByProduct (l : List Candidate) : List Candidate :=
  dedupGo [] l

/-- The shortlist loop over `deduplicated_recommendations[1:]`: append a
recommendation when its url is unseen and fewer than 5 have been kept
(`seen_urls` models the url set; the loop never breaks early). -/
def shortGo (acc : List Recommendation) (seenUrls : List String) :
    List Candidate → List Recommendation
  | [] => acc
  | r :: rest =>
    if r.url ∉ seenUrls ∧ acc.length < 5 then
      shortGo (acc ++ [r.toRec]) (seenUrls ++ [r.url]) rest
    else shortGo acc seenUrls rest

/-- `select_top_recommendation` (v7.0 lines 140-185; inlined in v7.1 lines
169-206): sort the pool by `(score, -vector_idx)` descending, deduplicate
by product, take `deduplicated_recommendations[0]` as the top match
(`none` models the `IndexError` on an empty pool) and build the top-5
shortlist deduplicated by url, seeded with the top match. -/
def selectTop (pool : List Candidate) : Option (Candidate × List Recommendation) :=
  match dedupByProduct (sortRecs pool) with
  | [] => none
  | top :: rest => some (top, shortGo [top.toRec] [top.url] rest)

/-- One `userinterests` document (projection
`{UserId, InterestName, InterestDescription, $vector}`); an absent or
empty `$vector` is modelled by `[]`. -/
structure Entry where
  vector : List ℚ
  interestName : String
  interestDescription : String
deriving DecidableEq, Repr

/-- The two external collections, as seen by one run: the `userinterests`
documents of each customer id and the `advertisements` similarity-search
response for each query vector. -/
structure Env where
  userinterests : String → List Entry
  adQuery : List ℚ → List Ad

/-- The merged display text `user_interests`.  Python builds each field by
joining a `set` whose iteration order is unspecified; no claim depends on
the joined text, so the underlying name and description lists are kept. -/
def interestsOf (entries : List Entry) : List String × List String :=
  (entries.map (·.interestName), entries.map (·.interestDescription))

/-- `user_vectors_with_interests`: the `(vector, name, description)` tuples
of the entries carrying a non-empty `$vector`. -/
def vectorsWithInterests (entries : List Entry) : List (List ℚ × String × String) :=
  (entries.filter (fun e => e.vector ≠ [])).map
    (fun e => (e.vector, e.interestName, e.interestDescription))

/-- The v7.1 `WorkflowState`. -/
structure WState where
  customer_id : String
  user_interests : List String × List String
  user_vectors_with_interests : List (List ℚ × String × String)
  ad_url : String
  product : String
  similarity_score : ℚ
  play_ad : Bool
  top_recommendations : List Recommendation
deriving DecidableEq, Repr

/-- v7.1 `agent_1_node`: raises `ValueError` when the customer id is
empty, when no `userinterests` entries exist, or when no entry carries a
usable vector; otherwise loads interests and vectors into the state. -/
def agent_1_node (env : Env) (s : WState) : Except String WState :=
  if s.customer_id = "" then Except.error "No CustomerID provided"
  else
    let entries := env.userinterests s.customer_id
    if entries = [] then
      Except.error "No entries found for UserId"
    else
      let uvwi := vectorsWithInterests entries
      if uvwi = [] then Except.error "No valid vector found for UserId"
      else Except.ok
        { customer_id := s.customer_id
          user_interests := interestsOf entries
          user_vectors_with_interests := uvwi
          ad_url := s.ad_url
          product := ""
          similarity_score := 0
          play_ad := false
          top_recommendations := [] }

/-- v7.1 `agent_2_node`: run one similarity query per interest vector,
merge the candidates, raise `ValueError` on an empty pool, and install the
selector's top match and shortlist into the state (`play_ad` stays false
for `agent_3_node` to decide).  The unreachable `IndexError` branch models
`deduplicated_recommendations[0]` on an empty deduplicated list. -/
def agent_2_node (env : Env) (s : WState) : Except String WState :=
  let pool := collectPool (s.user_vectors_with_interests.map (fun v => env.adQuery v.1))
  if pool = [] then
    Except.error "No advertisements found across all vectors (Selection Approach)"
  else
    match selectTop pool with
    | none => Except.error "IndexError"
    | some (top, shortlist) => Except.ok
        { s with ad_url := top.url, product := top.product,
                 similarity_score := top.score, play_ad := false,
                 top_recommendations := shortlist }

/-- v7.1 `agent_3_node` (lines 224-256): inclusive threshold gate.  At or
above `0.7` the state passes through with `play_ad := true`; below it the
ad fields become the fixed fallback, the score is reset to `0`, and the
shortlist is cleared. -/
def agent_3_node (s : WState) : WState :=
  if SIMILARITY_THRESHOLD ≤ s.similarity_score then
    { s with play_ad := true }
  else
    { s with play_ad := false, ad_url := DEFAULT_AD_URL, product := DEFAULT_PRODUCT,
             similarity_score := 0, top_recommendations := [] }

/-- v7.1 `error_handler_node`. -/
def error_handler_node (s : WState) : WState :=
  { s with ad_url := DEFAULT_VIDEO_URL, product := "", similarity_score := 0,
           play_ad := false, top_recommendations := [] }

/-- The compiled v7.1 LangGraph: `agent_1`, then `agent_2`/`agent_3` when a
customer id was produced, else `error_handler`; any node exception aborts
the run. -/
def runGraph (env : Env) (s0 : WState) : Except String WState :=
  match agent_1_node env s0 with
  | Except.error e => Except.error e
  | Except.ok s1 =>
    if s1.customer_id ≠ "" then
      match agent_2_node env s1 with
      | Except.error e => Except.error e
      | Except.ok s2 => Except.ok (agent_3_node s2)
    else Except.ok (error_handler_node s1)

/-- The initial state passed to `graph.invoke` in v7.1 `get_recommendations`. -/
def initState (user_id : String) : WState :=
  { customer_id := user_id, user_interests := ([], []),
    user_vectors_with_interests := [], ad_url := "", product := "",
    similarity_score := 0, play_ad := false, top_recommendations := [] }

/-- The JSON body of a successful `/recommend/{user_id}` response. -/
structure Response where
  customer_id : String
  user_interests : List String × List String
  top_ad : Recommendation
  top_recommendations : List Recommendation
deriving DecidableEq, Repr

/-- v7.1 `get_recommendations` (lines 291-335): invoke the graph; a raised
`ValueError` falls into the generic `except Exception` and becomes HTTP
500; a completed run with an empty customer id or an empty shortlist
becomes HTTP 404; otherwise the structured response is returned. -/
def get_recommendations (env : Env) (user_id : String) : Except ℕ Response :=
  match runGraph env (initState user_id) with
  | Except.error _ => Except.error 500
  | Except.ok r =>
    if r.customer_id = "" ∨ r.top_recommendations = [] then Except.error 404
    else Except.ok
      { customer_id := r.customer_id, user_interests := r.user_interests,
        top_ad := { url := r.ad_url, product := r.product, score := r.similarity_score },
        top_recommendations := r.top_recommendations }

/-- v7.0 `get_user_data` (lines 64-90): HTTP 404 when no entries exist,
HTTP 400 when entries exist but none carries a usable vector. -/
def get_user_data (env : Env) (user_id : String) :
    Except ℕ (String × (List String × List String) × List (List ℚ × String × String)) :=
  let entries := env.userinterests user_id
  if entries = [] then Except.error 404
  else
    let uvwi := vectorsWithInterests entries
    if uvwi = [] then Except.error 400
    else Except.ok (user_id, interestsOf entries, uvwi)

/-- v7.0 `get_recommendations` (lines 187-216): fetch user data, collect
the pool, select the top recommendation; any HTTP error propagates and
any other exception (here only the unreachable `IndexError`) becomes 500. -/
def get_recommendations_v70 (env : Env) (user_id : String) : Except ℕ Response :=
  match get_user_data env user_id with
  | Except.error c => Except.error c
  | Except.ok (cid, ui, uvwi) =>
    match performSelectionApproach (uvwi.map (fun v => env.adQuery v.1)) with
    | Except.error c => Except.error c
    | Except.ok pool =>
      match selectTop pool with
      | none => Except.error 500
      | some (top, shortlist) => Except.ok
          { customer_id := cid, user_interests := ui, top_ad := top.toRec,
            top_recommendations := shortlist }

/-- The v6.4 `WorkflowState` (selection-approach and aggregation-approach
field pairs). -/
structure WState64 where
  customer_id : String
  ad_url : String
  ad_url_agg : String
  user_interests : List String × List String
  user_vectors : List (List ℚ)
  user_vectors_with_interests : List (List ℚ × String × String)
  user_vector_agg : List ℚ
  product : String
  product_agg : String
  similarity_score : ℚ
  similarity_score_agg : ℚ
  play_ad : Bool
  play_ad_agg : Bool
  top_recommendations : List Recommendation
  top_recommendations_agg : List Recommendation
deriving DecidableEq, Repr

/-- v6.4 `agent_3_node` (lines 770-826): the same inclusive gate applied
first to the selection-approach fields, then to the aggregation-approach
fields; the similarity scores are never modified. -/
def agent_3_node_v64 (s : WState64) : WState64 :=
  let s1 :=
    if SIMILARITY_THRESHOLD ≤ s.similarity_score then
      { s with play_ad := true }
    else
      { s with play_ad := false, ad_url := DEFAULT_AD_URL, product := DEFAULT_PRODUCT }
  if SIMILARITY_THRESHOLD ≤ s1.similarity_score_agg then
    { s1 with play_ad_agg := true }
  else
    { s1 with play_ad_agg := false, ad_url_agg := DEFAULT_AD_URL,
              product_agg := DEFAULT_PRODUCT }

/-- v6.4 `error_handler_node` (lines 829-848): fixed default-video URL,
empty product, zero score, `play_ad = false` for both approaches. -/
def error_handler_node_v64 (s : WState64) : WState64 :=
  { s with ad_url := DEFAULT_VIDEO_URL, ad_url_agg := DEFAULT_VIDEO_URL,
           product := "", product_agg := "", similarity_score := 0,
           similarity_score_agg := 0, play_ad := false, play_ad_agg := false,
           top_recommendations := [], top_recommendations_agg := [] }

/-- v6.4 `aggregate_vectors` (lines 62-74): empty input yields `[]`;
otherwise `np.mean(np.array(vectors), axis=0)`, which for equal-length
rows is the component-wise arithmetic mean (a ragged input makes numpy
raise, which the `except` turns into `[]`). -/
def aggregate_vectors (vectors : List (List ℚ)) : List ℚ :=
  match vectors with
  | [] => []
  | v :: rest =>
    if (v :: rest).all (fun w => w.length = v.length) then
      (List.range v.length).map (fun i =>
        ((v :: rest).map (fun w => w.getD i 0)).sum / ((v :: rest).length : ℚ))
    else []

/-- An interest entry with a one-dimensional vector, for concrete runs. -/
def entryFood : Entry := { vector := [1], interestName := "Food", interestDescription := "Desc" }

/-- An advertisement whose similarity (`1/2`) is below the threshold. -/
def adLow : Ad := { product := "P1", video_link := "L1", similarity := Rat.divInt 1 2 }

/-- An advertisement whose similarity (`9/10`) is above the threshold. -/
def adGood : Ad := { product := "PG", video_link := "LG", similarity := Rat.divInt 9 10 }

/-- Environment in which the best match scores `1/2 < 0.7`. -/
def envLow : Env := { userinterests := fun _ => [entryFood], adQuery := fun _ => [adLow] }

/-- Environment in which the customer has no `userinterests` documents. -/
def envEmpty : Env := { userinterests := fun _ => [], adQuery := fun _ => [adGood] }

/-- Environment in which entries exist but none carries a usable vector. -/
def envNoVec : Env :=
  { userinterests := fun _ => [{ vector := [], interestName := "N", interestDescription := "D" }],
    adQuery := fun _ => [adGood] }

/-- Environment in which the advertisement index returns nothing. -/
def envNoAds : Env := { userinterests := fun _ => [entryFood], adQuery := fun _ => [] }

/-- The state produced by the v7.1 graph on `envLow` for customer `"u1"`. -/
def rLow : WState :=
  { customer_id := "u1", user_interests := (["Food"], ["Desc"]),
    user_vectors_with_interests := [([1], "Food", "Desc")],
    ad_url := DEFAULT_AD_URL, product := DEFAULT_PRODUCT, similarity_score := 0,
    play_ad := false, top_recommendations := [] }

/-- A v7.1 state whose score sits exactly on the threshold. -/
def sHi : WState :=
  { customer_id := "c", user_interests := ([], []), user_vectors_with_interests := [],
    ad_url := "https://x", product := "Prod", similarity_score := Rat.divInt 7 10,
    play_ad := false, top_recommendations := [] }

/-- A v7.1 state with score `0.6999`, just below the threshold. -/
def sLo : WState := { sHi with similarity_score := Rat.divInt 6999 10000 }

/-- A v6.4 state whose selection score sits exactly on the threshold. -/
def s64Hi : WState64 :=
  { customer_id := "c", ad_url := "https://x", ad_url_agg := "https://y",
    user_interests := ([], []), user_vectors := [], user_vectors_with_interests := [],
    user_vector_agg := [], product := "Prod", product_agg := "ProdA",
    similarity_score := Rat.divInt 7 10, similarity_score_agg := 0, play_ad := false,
    play_ad_agg := false, top_recommendations := [], top_recommendations_agg := [] }

/-- A v6.4 state with selection score `0.6999`. -/
def s64Lo : WState64 := { s64Hi with similarity_score := Rat.divInt 6999 10000 }

/-- The selector's expected top match on `poolW`. -/
def candW : Candidate := { url := "u1", product := "P1", score := Rat.divInt 9 10, vector_idx := 0 }

/-- A three-candidate pool with a product duplicate across vectors. -/
def poolW : List Candidate :=
  [candW,
   { url := "u2", product := "P1", score := Rat.divInt 4 5, vector_idx := 1 },
   { url := "u3", product := "P2", score := Rat.divInt 4 5, vector_idx := 1 }]

/-- The selector's expected shortlist on `poolW`. -/
def slW : List Recommendation :=
  [{ url := "u1", product := "P1", score := Rat.divInt 9 10 },
   { url := "u3", product := "P2", score := Rat.divInt 4 5 }]

theorem agent_1_ok_customer {env : Env} {s s1 : WState}
    (h : agent_1_node env s = Except.ok s1) :
    s1.customer_id = s.customer_id ∧ s.customer_id ≠ "" := by
  unfold agent_1_node at h
  dsimp only at h
  split at h
  · exact absurd h (by simp)
  next h0 =>
    split at h
    · exact absurd h (by simp)
    · split at h
      · exact absurd h (by simp)
      · cases h
        exact ⟨rfl, h0⟩

theorem agent_3_cases (s : WState) :
    (SIMILARITY_THRESHOLD ≤ s.similarity_score ∧
      agent_3_node s = { s with play_ad := true }) ∨
    (s.similarity_score < SIMILARITY_THRESHOLD ∧
      agent_3_node s =
        { s with play_ad := false, ad_url := DEFAULT_AD_URL, product := DEFAULT_PRODUCT,
                 similarity_score := 0, top_recommendations := [] }) := by
  by_cases hc : SIMILARITY_THRESHOLD ≤ s.similarity_score
  · exact Or.inl ⟨hc, by simp [agent_3_node, hc]⟩
  · exact Or.inr ⟨not_le.mp hc, by simp [agent_3_node, hc]⟩

theorem runGraph_ok_playAd_false {env : Env} {uid : String} {r : WState}
    (h : runGraph env (initState uid) = Except.ok r) (hp : r.play_ad = false) :
    r.ad_url = DEFAULT_AD_URL ∧ r.product = DEFAULT_PRODUCT ∧
    r.similarity_score = 0 ∧ r.top_recommendations = [] := by
  unfold runGraph at h
  cases h1 : agent_1_node env (initState uid) with
  | error e => rw [h1] at h; exact absurd h (by simp)
  | ok s1 =>
    rw [h1] at h
    dsimp only at h
    have hc := agent_1_ok_customer h1
    rw [if_pos (by simpa [initState] using hc.1 ▸ hc.2)] at h
    cases h2 : agent_2_node env s1 with
    | error e => rw [h2] at h; exact absurd h (by simp)
    | ok s2 =>
      rw [h2] at h
      dsimp only at h
      cases h
      rcases agent_3_cases s2 with ⟨_, heq⟩ | ⟨_, heq⟩
      · rw [heq] at hp; simp at hp
      · rw [heq] at hp ⊢; simp

/-- C1: the Threshold Validator's boundary is inclusive.  In both the v7.1
service and the v6.4 CLI `agent_3_node`, a score `s ≥ 0.7` sets `play_ad`
to `true` and passes the match through unchanged, while `s < 0.7` (for
example `0.6999`) sets `play_ad` to `false` and replaces `ad_url` and
`product` with the fixed fallback constants `DEFAULT_AD_URL` and
`"Generic Product"`. -/
theorem threshold_boundary_inclusive :
    (∀ s : WState, SIMILARITY_THRESHOLD ≤ s.similarity_score →
      agent_3_node s = { s with play_ad := true }) ∧
    (∀ s : WState, s.similarity_score < SIMILARITY_THRESHOLD →
      (agent_3_node s).play_ad = false ∧ (agent_3_node s).ad_url = DEFAULT_AD_URL ∧
      (agent_3_node s).product = DEFAULT_PRODUCT) ∧
    (∀ s : WState64, SIMILARITY_THRESHOLD ≤ s.similarity_score →
      (agent_3_node_v64 s).play_ad = true ∧ (agent_3_node_v64 s).ad_url = s.ad_url ∧
      (agent_3_node_v64 s).product = s.product ∧
      (agent_3_node_v64 s).similarity_score = s.similarity_score ∧
      (agent_3_node_v64 s).top_recommendations = s.top_recommendations) ∧
    (∀ s : WState64, s.similarity_score < SIMILARITY_THRESHOLD →
      (agent_3_node_v64 s).play_ad = false ∧ (agent_3_node_v64 s).ad_url = DEFAULT_AD_URL ∧
      (agent_3_node_v64 s).product = DEFAULT_PRODUCT) := by
  refine ⟨fun s hs => by simp [agent_3_node, hs], fun s hs => ?_, fun s hs => ?_, fun s hs => ?_⟩
  · have hn : ¬ SIMILARITY_THRESHOLD ≤ s.similarity_score := not_le.mpr hs
    simp [agent_3_node, hn]
  · unfold agent_3_node_v64
    dsimp only
    rw [if_pos hs]
    split <;> simp
  · have hn : ¬ SIMILARITY_THRESHOLD ≤ s.similarity_score := not_le.mpr hs
    unfold agent_3_node_v64
    dsimp only
    rw [if_neg hn]
    split <;> simp

/-- C1 witness: the theorem applied at the boundary score `0.7` and at
`0.6999`, in both variants. -/
theorem threshold_boundary_inclusive_witness :
    (agent_3_node sHi = { sHi with play_ad := true }) ∧
    ((agent_3_node sLo).play_ad = false ∧ (agent_3_node sLo).ad_url = DEFAULT_AD_URL ∧
      (agent_3_node sLo).product = DEFAULT_PRODUCT) ∧
    ((agent_3_node_v64 s64Hi).play_ad = true ∧ (agent_3_node_v64 s64Hi).ad_url = s64Hi.ad_url ∧
      (agent_3_node_v64 s64Hi).product = s64Hi.product ∧
      (agent_3_node_v64 s64Hi).similarity_score = s64Hi.similarity_score ∧
      (agent_3_node_v64 s64Hi).top_recommendations = s64Hi.top_recommendations) ∧
    ((agent_3_node_v64 s64Lo).play_ad = false ∧ (agent_3_node_v64 s64Lo).ad_url = DEFAULT_AD_URL ∧
      (agent_3_node_v64 s64Lo).product = DEFAULT_PRODUCT) := by
  obtain ⟨h1, h2, h3, h4⟩ := threshold_boundary_inclusive
  exact ⟨h1 sHi (by decide), h2 sLo (by decide), h3 s64Hi (by decide), h4 s64Lo (by decide)⟩

/-- C2 counterexample: on `envLow` the best candidate scores `1/2 < 0.7`;
the v7.1 workflow does complete with `play_ad = false`, but the HTTP call
returns the error status 404 (the validator cleared the shortlist and
`get_recommendations` treats an empty shortlist as failure), contradicting
the claim that the service call does not return an error status. -/
theorem low_confidence_counterexample :
    (runGraph envLow (initState "u1")).map WState.play_ad = Except.ok false ∧
    get_recommendations envLow "u1" = Except.error 404 :=
  ⟨by decide, by decide⟩

/-- C2 (amended): a sub-threshold best score is not an exception inside
the workflow — the run completes with `play_ad = false` and the fallback
ad fields — but in the v7.1 service the validator also clears
`top_recommendations`, so the HTTP call then returns the error status 404
rather than a structured result. -/
theorem low_confidence_clears_shortlist (env : Env) (uid : String) (r : WState)
    (h : runGraph env (initState uid) = Except.ok r) (hp : r.play_ad = false) :
    r.ad_url = DEFAULT_AD_URL ∧ r.product = DEFAULT_PRODUCT ∧
    r.top_recommendations = [] ∧
    get_recommendations env uid = Except.error 404 := by
  obtain ⟨hu, hpr, _, ht⟩ := runGraph_ok_playAd_false h hp
  refine ⟨hu, hpr, ht, ?_⟩
  unfold get_recommendations
  rw [h]
  simp [ht]

/-- C2 witness: the amended claim at the concrete run `envLow`/`"u1"`. -/
theorem low_confidence_clears_shortlist_witness :
    runGraph envLow (initState "u1") = Except.ok rLow ∧
    rLow.play_ad = false ∧
    (rLow.ad_url = DEFAULT_AD_URL ∧ rLow.product = DEFAULT_PRODUCT ∧
      rLow.top_recommendations = [] ∧
      get_recommendations envLow "u1" = Except.error 404) :=
  ⟨by decide, by decide, low_confidence_clears_shortlist envLow "u1" rLow (by decide) (by decide)⟩

/-- C3: whenever a completed run carries `play_ad = false`, the ad fields
are the fixed fallback constants.  In v7.1 every completed run passes the
validator (the error handler is unreachable because `agent_1_node` raises
on an empty customer id), so `ad_url`/`product` are the threshold fallback
and the score is reset to `0`; in v6.4 the validator keeps the original
sub-threshold score alongside the threshold fallback, while the error
handler produces the other fixed pair (the default-video URL with an empty
product) and score `0`. -/
theorem playAd_false_invariant :
    (∀ (env : Env) (uid : String) (r : WState),
      runGraph env (initState uid) = Except.ok r → r.play_ad = false →
      r.ad_url = DEFAULT_AD_URL ∧ r.product = DEFAULT_PRODUCT ∧ r.similarity_score = 0) ∧
    (∀ s : WState64, (agent_3_node_v64 s).play_ad = false →
      (agent_3_node_v64 s).ad_url = DEFAULT_AD_URL ∧
      (agent_3_node_v64 s).product = DEFAULT_PRODUCT ∧
      (agent_3_node_v64 s).similarity_score = s.similarity_score) ∧
    (∀ s : WState64, (error_handler_node_v64 s).play_ad = false ∧
      (error_handler_node_v64 s).ad_url = DEFAULT_VIDEO_URL ∧
      (error_handler_node_v64 s).product = "" ∧
      (error_handler_node_v64 s).similarity_score = 0) := by
  refine ⟨fun env uid r h hp => ?_, fun s hp => ?_, fun s => by simp [error_handler_node_v64]⟩
  · obtain ⟨h1, h2, h3, _⟩ := runGraph_ok_playAd_false h hp
    exact ⟨h1, h2, h3⟩
  · by_cases hc : SIMILARITY_THRESHOLD ≤ s.similarity_score
    · exfalso
      unfold agent_3_node_v64 at hp
      dsimp only at hp
      rw [if_pos hc] at hp
      revert hp
      split <;> simp
    · unfold agent_3_node_v64
      dsimp only
      rw [if_neg hc]
      split <;> simp

/-- C3 witness: the invariant applied to the completed low-confidence v7.1
run and to a concrete sub-threshold v6.4 state. -/
theorem playAd_false_invariant_witness :
    (rLow.ad_url = DEFAULT_AD_URL ∧ rLow.product = DEFAULT_PRODUCT ∧
      rLow.similarity_score = 0) ∧
    ((agent_3_node_v64 s64Lo).ad_url = DEFAULT_AD_URL ∧
      (agent_3_node_v64 s64Lo).product = DEFAULT_PRODUCT ∧
      (agent_3_node_v64 s64Lo).similarity_score = s64Lo.similarity_score) := by
  obtain ⟨h1, h2, _⟩ := playAd_false_invariant
  exact ⟨h1 envLow "u1" rLow (by decide) (by decide), h2 s64Lo (by decide)⟩

/-- C4 counterexample: the collection loops wrap no per-query exception
handler, so a raised similarity query (`none`) aborts the whole collection
step even though the next vector would have contributed a candidate —
contradicting the claim that a transient query error is logged, skipped
and non-fatal. -/
theorem transient_error_aborts_collection :
    collectGoE 0 [none, some [adGood]] = none ∧ vectorRecs 1 [adGood] ≠ [] := by
  exact ⟨rfl, by decide⟩

/-- C4 (amended): only a query that returns normally is processed; when
every query returns, the exception-aware loop agrees with the plain one,
and a single raised query makes the whole collection step fail at once
(the remaining vectors are never queried). -/
theorem transient_error_amended :
    (∀ (idx : ℕ) (qs : List (List Ad)),
      collectGoE idx (qs.map some) = some (collectGo idx qs)) ∧
    (∀ (idx : ℕ) (qs₁ : List (List Ad)) (qs₂ : List (Option (List Ad))),
      collectGoE idx (qs₁.map some ++ none :: qs₂) = none) := by
  constructor
  · intro idx qs
    induction qs generalizing idx with
    | nil => rfl
    | cons q rest ih => simp [collectGoE, collectGo, ih]
  · intro idx qs₁ qs₂
    induction qs₁ generalizing idx with
    | nil => rfl
    | cons q rest ih => simp [collectGoE, ih]

/-- C5: a similarity query that returns zero results for one vector does
not abort the collection of the subsequent vectors — the pool of
`qs₁ ++ [[]] ++ qs₂` is the pool of `qs₁` followed by the candidates of
`qs₂` at their shifted indices — and the "no advertisements found"
failure (HTTP 404 in v7.0) is reported if and only if the merged pool is
empty after all vectors have been tried. -/
theorem zero_result_query_not_fatal :
    (∀ (i : ℕ) (qs₁ qs₂ : List (List Ad)),
      collectGo i (qs₁ ++ [] :: qs₂) =
        collectGo i qs₁ ++ collectGo (i + qs₁.length + 1) qs₂) ∧
    (∀ qs : List (List Ad),
      performSelectionApproach qs = Except.error 404 ↔ collectPool qs = []) ∧
    (∀ qs : List (List Ad),
      performSelectionApproach qs = Except.ok (collectPool qs) ↔ collectPool qs ≠ []) := by
  refine ⟨?_, ?_, ?_⟩
  · intro i qs₁ qs₂
    induction qs₁ generalizing i with
    | nil => simp [collectGo, vectorRecs, vectorRecsGo]
    | cons q rest ih =>
      have hidx : i + 1 + rest.length + 1 = i + (rest.length + 1) + 1 := by omega
      simp only [List.cons_append, collectGo, List.append_eq, ih, List.append_assoc,
        List.length_cons, hidx]
  · intro qs
    simp only [performSelectionApproach]
    by_cases h : collectPool qs = [] <;> simp [h]
  · intro qs
    simp only [performSelectionApproach]
    by_cases h : collectPool qs = [] <;> simp [h]

/-- C9: on a non-empty list of equal-length vectors, `aggregate_vectors`
returns a vector of that same length whose `i`-th component is the
arithmetic mean of the `i`-th input components, and on the empty list it
returns the empty vector instead of raising. -/
theorem aggregate_vectors_mean (vs : List (List ℚ)) (n : ℕ) (hne : vs ≠ [])
    (hlen : ∀ v ∈ vs, v.length = n) :
    (aggregate_vectors vs).length = n ∧
    (∀ i, i < n → (aggregate_vectors vs).getD i 0 =
      (vs.map (fun w => w.getD i 0)).sum / (vs.length : ℚ)) ∧
    aggregate_vectors [] = [] := by
  match vs, hne with
  | v :: rest, _ =>
    have hv : v.length = n := hlen v (List.mem_cons_self v rest)
    have hall : (v :: rest).all (fun w => decide (w.length = v.length)) = true := by
      rw [List.all_eq_true]
      intro w hw
      simp [hlen w hw, hv]
    have hagg : aggregate_vectors (v :: rest) =
        (List.range v.length).map (fun i =>
          ((v :: rest).map (fun w => w.getD i 0)).sum / (((v :: rest).length : ℕ) : ℚ)) := by
      simp only [aggregate_vectors, hall, if_true]
    refine ⟨by simp [hagg, hv], fun i hi => ?_, rfl⟩
    rw [hagg, List.getD_eq_getElem?_getD, List.getElem?_map,
        List.getElem?_range (hv ▸ hi)]
    rfl

/-- C9 witness: the mean of `[1, 3]` and `[3, 5]` componentwise. -/
theorem aggregate_vectors_mean_witness :
    (aggregate_vectors [[1, 3], [3, 5]]).length = 2 ∧
    (aggregate_vectors [[1, 3], [3, 5]]).getD 0 0 =
      (([[1, 3], [3, 5]] : List (List ℚ)).map (fun w => w.getD 0 0)).sum /
        ((([[1, 3], [3, 5]] : List (List ℚ)).length : ℕ) : ℚ) ∧
    aggregate_vectors [] = [] := by
  have h := aggregate_vectors_mean [[1, 3], [3, 5]] 2 (by decide) (by decide)
  exact ⟨h.1, h.2.1 0 (by decide), h.2.2⟩

/-- C10 counterexample: for a customer with no interest records the v7.1
service returns HTTP 500 (the workflow raises `ValueError`, which lands
in the generic `except Exception` handler), not the claimed 404. -/
theorem http_status_counterexample :
    get_recommendations envEmpty "u1" = Except.error 500 ∧
    get_recommendations envEmpty "u1" ≠ Except.error 404 :=
  ⟨by decide, by decide⟩

/-- C10 (amended): the v7.0 service maps the conditions as claimed — 404
when the customer has no interest records or the merged candidate pool is
empty, 400 when records exist but none carries a usable vector — while in
v7.1 those same conditions surface as HTTP 500, and v7.1 returns 404
exactly when the workflow completes with an empty customer id or an empty
shortlist. -/
theorem http_status_mapping :
    (∀ (env : Env) (uid : String), env.userinterests uid = [] →
      get_recommendations_v70 env uid = Except.error 404) ∧
    (∀ (env : Env) (uid : String), env.userinterests uid ≠ [] →
      vectorsWithInterests (env.userinterests uid) = [] →
      get_recommendations_v70 env uid = Except.error 400) ∧
    (∀ (env : Env) (uid : String), env.userinterests uid ≠ [] →
      vectorsWithInterests (env.userinterests uid) ≠ [] →
      collectPool ((vectorsWithInterests (env.userinterests uid)).map
        (fun v => env.adQuery v.1)) = [] →
      get_recommendations_v70 env uid = Except.error 404) ∧
    (∀ (env : Env) (uid : String), env.userinterests uid = [] →
      get_recommendations env uid = Except.error 500) ∧
    (∀ (env : Env) (uid : String), vectorsWithInterests (env.userinterests uid) = [] →
      get_recommendations env uid = Except.error 500) ∧
    (∀ (env : Env) (uid : String), env.userinterests uid ≠ [] →
      vectorsWithInterests (env.userinterests uid) ≠ [] →
      collectPool ((vectorsWithInterests (env.userinterests uid)).map
        (fun v => env.adQuery v.1)) = [] →
      get_recommendations env uid = Except.error 500) ∧
    (∀ (env : Env) (uid : String) (r : WState),
      runGraph env (initState uid) = Except.ok r →
      (get_recommendations env uid = Except.error 404 ↔
        (r.customer_id = "" ∨ r.top_recommendations = []))) := by
  have hrun : ∀ (env : Env) (uid : String),
      vectorsWithInterests (env.userinterests uid) = [] →
      ∃ e, runGraph env (initState uid) = Except.error e := by
    intro env uid hv
    unfold runGraph agent_1_node initState
    dsimp only
    by_cases h0 : uid = ""
    · rw [if_pos h0]; exact ⟨_, rfl⟩
    · rw [if_neg h0]
      by_cases h1 : env.userinterests uid = []
      · rw [if_pos h1]; exact ⟨_, rfl⟩
      · rw [if_neg h1, if_pos hv]; exact ⟨_, rfl⟩
  refine ⟨?_, ?_, ?_, ?_, ?_, ?_, ?_⟩
  · intro env uid h
    unfold get_recommendations_v70 get_user_data
    dsimp only
    rw [if_pos h]
  · intro env uid h hv
    unfold get_recommendations_v70 get_user_data
    dsimp only
    rw [if_neg h, if_pos hv]
  · intro env uid h hv hp
    unfold get_recommendations_v70 get_user_data
    dsimp only
    rw [if_neg h, if_neg hv]
    unfold performSelectionApproach
    dsimp only
    rw [if_pos hp]
  · intro env uid h
    obtain ⟨e, he⟩ := hrun env uid (by simp [vectorsWithInterests, h])
    unfold get_recommendations
    rw [he]
  · intro env uid h
    obtain ⟨e, he⟩ := hrun env uid h
    unfold get_recommendations
    rw [he]
  · intro env uid h hv hp
    unfold get_recommendations runGraph agent_1_node initState
    dsimp only
    by_cases h0 : uid = ""
    · rw [if_pos h0]
    · rw [if_neg h0, if_neg h, if_neg hv]
      dsimp only
      rw [if_pos h0]
      unfold agent_2_node
      dsimp only
      rw [if_pos hp]
  · intro env uid r h
    unfold get_recommendations
    rw [h]
    dsimp only
    by_cases hc : r.customer_id = "" ∨ r.top_recommendations = []
    · simp [hc]
    · rw [if_neg hc]
      simp [hc]

theorem sortRel_refl (a : Candidate) : sortRel a a := Or.inr ⟨rfl, le_rfl⟩

theorem sortRecs_perm (l : List Candidate) : (sortRecs l).Perm l :=
  List.perm_insertionSort sortRel l

theorem sortRecs_sorted (l : List Candidate) : (sortRecs l).Pairwise sortRel :=
  List.sorted_insertionSort sortRel l

theorem dedupGo_sublist (seen : List String) (l : List Candidate) :
    (dedupGo seen l).Sublist l := by
  induction l generalizing seen with
  | nil => simp [dedupGo]
  | cons c rest ih =>
    unfold dedupGo
    split
    · exact (ih seen).cons c
    · exact (ih (seen ++ [c.product])).cons₂ c

theorem dedupGo_not_seen {c : Candidate} {seen : List String} {l : List Candidate}
    (h : c ∈ dedupGo seen l) : c.product ∉ seen := by
  induction l generalizing seen with
  | nil => simp [dedupGo] at h
  | cons d rest ih =>
    unfold dedupGo at h
    split at h
    · exact ih h
    next hd =>
      rcases List.mem_cons.mp h with rfl | h'
      · exact hd
      · intro hc
        exact ih h' (List.mem_append_left _ hc)

theorem dedupGo_products_nodup (seen : List String) (l : List Candidate) :
    ((dedupGo seen l).map Candidate.product).Nodup := by
  induction l generalizing seen with
  | nil => simp [dedupGo]
  | cons c rest ih =>
    unfold dedupGo
    split
    · exact ih seen
    next hc =>
      simp only [List.map_cons, List.nodup_cons]
      refine ⟨?_, ih (seen ++ [c.product])⟩
      intro hmem
      obtain ⟨d, hd, hdp⟩ := List.mem_map.mp hmem
      exact dedupGo_not_seen hd (by simp [hdp])

theorem dedupGo_dominates {l : List Candidate} (hl : l.Pairwise sortRel) :
    ∀ (seen : List String), ∀ c ∈ dedupGo seen l, ∀ d ∈ l,
      d.product = c.product → sortRel c d := by
  induction l with
  | nil => intro seen c hc; simp [dedupGo] at hc
  | cons x rest ih =>
    obtain ⟨hx, hrest⟩ := List.pairwise_cons.mp hl
    intro seen c hc d hd hdp
    unfold dedupGo at hc
    split at hc
    next hseen =>
      rcases List.mem_cons.mp hd with rfl | hd'
      · exact absurd (hdp ▸ hseen) (dedupGo_not_seen hc)
      · exact ih hrest seen c hc d hd' hdp
    next hseen =>
      rcases List.mem_cons.mp hc with rfl | hc'
      · rcases List.mem_cons.mp hd with rfl | hd'
        · exact sortRel_refl d
        · exact hx d hd'
      · rcases List.mem_cons.mp hd with rfl | hd'
        · exact absurd (by simp [hdp]) (dedupGo_not_seen hc')
        · exact ih hrest (seen ++ [x.product]) c hc' d hd' hdp

theorem dedupGo_exists {l : List Candidate} :
    ∀ (seen : List String), ∀ d ∈ l, d.product ∉ seen →
      ∃ c ∈ dedupGo seen l, c.product = d.product := by
  induction l with
  | nil => intro seen d hd; simp at hd
  | cons x rest ih =>
    intro seen d hd hds
    unfold dedupGo
    split
    next hxs =>
      rcases List.mem_cons.mp hd with rfl | hd'
      · exact absurd hxs hds
      · exact ih seen d hd' hds
    next hxs =>
      rcases List.mem_cons.mp hd with rfl | hd'
      · exact ⟨d, List.mem_cons_self d _, rfl⟩
      · by_cases hpx : d.product = x.product
        · exact ⟨x, List.mem_cons_self x _, hpx.symm⟩
        · obtain ⟨c, hc, hcp⟩ := ih (seen ++ [x.product]) d hd' (by
            simp only [List.mem_append, List.mem_singleton]
            rintro (hmem | hmem)
            · exact hds hmem
            · exact hpx hmem)
          exact ⟨c, List.mem_cons_of_mem _ hc, hcp⟩

theorem dedupByProduct_ne_nil {l : List Candidate} (h : l ≠ []) :
    dedupByProduct l ≠ [] := by
  match l, h with
  | c :: rest, _ =>
    unfold dedupByProduct dedupGo
    simp

theorem selectTop_eq {pool : List Candidate} {top : Candidate} {sl : List Recommendation}
    (h : selectTop pool = some (top, sl)) :
    ∃ rest, dedupByProduct (sortRecs pool) = top :: rest ∧
      sl = shortGo [top.toRec] [top.url] rest := by
  unfold selectTop at h
  cases hdd : dedupByProduct (sortRecs pool) with
  | nil => rw [hdd] at h; exact absurd h (by simp)
  | cons t r =>
    rw [hdd] at h
    dsimp only at h
    cases h
    exact ⟨r, rfl, rfl⟩

theorem shortGoSub (l : List Candidate) :
    ∀ (acc : List Recommendation) (seen : List String),
      ∃ sub : List Candidate, sub.Sublist l ∧ shortGo acc seen l = acc ++ sub.map Candidate.toRec := by
  induction l with
  | nil =>
    intro acc seen
    exact ⟨[], List.nil_sublist _, by simp [shortGo]⟩
  | cons r rest ih =>
    intro acc seen
    unfold shortGo
    split
    · obtain ⟨sub, hs, he⟩ := ih (acc ++ [r.toRec]) (seen ++ [r.url])
      exact ⟨r :: sub, hs.cons₂ r, by simp [he]⟩
    · obtain ⟨sub, hs, he⟩ := ih acc seen
      exact ⟨sub, hs.cons r, he⟩

theorem shortGo_urls_nodup (l : List Candidate) :
    ∀ (acc : List Recommendation) (seen : List String),
      (acc.map Recommendation.url).Nodup →
      (∀ u ∈ acc.map Recommendation.url, u ∈ seen) →
      ((shortGo acc seen l).map Recommendation.url).Nodup := by
  induction l with
  | nil =>
    intro acc seen h1 _
    simpa [shortGo] using h1
  | cons r rest ih =>
    intro acc seen h1 h2
    unfold shortGo
    split
    next hcond =>
      refine ih (acc ++ [r.toRec]) (seen ++ [r.url]) ?_ ?_
      · rw [List.map_append, List.nodup_append]
        refine ⟨h1, by simp, ?_⟩
        intro a ha hb
        simp only [List.map_cons, List.map_nil, List.mem_singleton] at hb
        have : a ∈ seen := h2 a ha
        rw [show a = r.url from hb] at this
        exact hcond.1 this
      · intro u hu
        rw [List.map_append] at hu
        rcases List.mem_append.mp hu with hu' | hu'
        · exact List.mem_append_left _ (h2 u hu')
        · simp only [List.map_cons, List.map_nil, List.mem_singleton] at hu'
          exact List.mem_append_right _ (by simp [hu', Candidate.toRec])
    · exact ih acc seen h1 h2

theorem shortGo_length (l : List Candidate) :
    ∀ (acc : List Recommendation) (seen : List String), acc.length ≤ 5 →
      (shortGo acc seen l).length =
        min 5 (acc.length + ((l.map Candidate.url).toFinset \ seen.toFinset).card) := by
  induction l with
  | nil =>
    intro acc seen h
    simp only [shortGo, List.map_nil, List.toFinset_nil, Finset.empty_sdiff,
      Finset.card_empty, Nat.add_zero]
    omega
  | cons r rest ih =>
    intro acc seen h
    unfold shortGo
    split
    next hcond =>
      obtain ⟨hurl, hlen⟩ := hcond
      rw [ih (acc ++ [r.toRec]) (seen ++ [r.url]) (by simp; omega)]
      have hrF : r.url ∉ seen.toFinset := by simpa using hurl
      have happ : (seen ++ [r.url]).toFinset = insert r.url seen.toFinset := by
        ext x
        by_cases hx : x = r.url <;> simp [hx]
      have hset : ((r :: rest).map Candidate.url).toFinset \ seen.toFinset
          = insert r.url
              ((rest.map Candidate.url).toFinset \ insert r.url seen.toFinset) := by
        ext x
        by_cases hx : x = r.url
        · subst hx
          simp [hrF]
        · simp [hx]
      rw [happ, hset, Finset.card_insert_of_not_mem (by simp)]
      simp only [List.length_append, List.length_cons, List.length_nil]
      omega
    next hcond =>
      rw [ih acc seen h]
      rcases not_and_or.mp hcond with h1 | h1
      · have hr : r.url ∈ seen := not_not.mp h1
        have : ((r :: rest).map Candidate.url).toFinset \ seen.toFinset
            = (rest.map Candidate.url).toFinset \ seen.toFinset := by
          simp only [List.map_cons, List.toFinset_cons]
          exact Finset.insert_sdiff_of_mem _ (by simpa using hr)
        rw [this]
      · have h5 : acc.length = 5 := by omega
        rw [h5]
        omega

/-- C6: given a non-empty candidate pool, the selector keeps, for every
product in the pool, exactly one candidate — a pool member whose score is
maximal for that product, with score ties resolved towards the lower
originating-vector index — and the deduplicated list is sorted by
descending score with the selector's top match as its first element. -/
theorem rank_dedup_selector (pool : List Candidate) (hne : pool ≠ []) :
    (selectTop pool).isSome = true ∧
    ∀ top sl, selectTop pool = some (top, sl) →
      (dedupByProduct (sortRecs pool)).head? = some top ∧
      (dedupByProduct (sortRecs pool)).Pairwise (fun a b => b.score ≤ a.score) ∧
      (∀ c ∈ dedupByProduct (sortRecs pool), c ∈ pool ∧
        ∀ d ∈ pool, d.product = c.product →
          d.score < c.score ∨ (d.score = c.score ∧ c.vector_idx ≤ d.vector_idx)) ∧
      (∀ d ∈ pool, ∃! c, c ∈ dedupByProduct (sortRecs pool) ∧ c.product = d.product) := by
  have hsne : sortRecs pool ≠ [] := by
    intro hnil
    exact hne (List.eq_nil_of_length_eq_zero
      (by rw [← (sortRecs_perm pool).length_eq, hnil]; rfl))
  have hdne : dedupByProduct (sortRecs pool) ≠ [] := dedupByProduct_ne_nil hsne
  have hpw : (dedupByProduct (sortRecs pool)).Pairwise sortRel :=
    List.Pairwise.sublist (dedupGo_sublist [] (sortRecs pool)) (sortRecs_sorted pool)
  constructor
  · unfold selectTop
    cases hdd : dedupByProduct (sortRecs pool) with
    | nil => exact absurd hdd hdne
    | cons t r => rfl
  · intro top sl h
    obtain ⟨rest, hdd, _⟩ := selectTop_eq h
    refine ⟨by rw [hdd]; rfl, ?_, ?_, ?_⟩
    · refine hpw.imp ?_
      intro a b hab
      rcases hab with hlt | ⟨heq, _⟩
      · exact le_of_lt hlt
      · exact le_of_eq heq
    · intro c hc
      have hcs : c ∈ sortRecs pool := (dedupGo_sublist [] (sortRecs pool)).mem hc
      refine ⟨(sortRecs_perm pool).mem_iff.mp hcs, ?_⟩
      intro d hd hdp
      exact dedupGo_dominates (sortRecs_sorted pool) [] c hc d
        ((sortRecs_perm pool).mem_iff.mpr hd) hdp
    · intro d hd
      obtain ⟨c, hc, hcp⟩ := dedupGo_exists [] d
        ((sortRecs_perm pool).mem_iff.mpr hd) (by simp)
      refine ⟨c, ⟨hc, hcp⟩, ?_⟩
      intro y hy
      exact List.inj_on_of_nodup_map (dedupGo_products_nodup [] (sortRecs pool))
        hy.1 hc (by rw [hy.2, hcp])

/-- C6 witness: the selector applied to the concrete pool `poolW`. -/
theorem rank_dedup_selector_witness :
    (selectTop poolW).isSome = true ∧
    (dedupByProduct (sortRecs poolW)).head? = some candW := by
  have h := rank_dedup_selector poolW (by decide)
  exact ⟨h.1, (h.2 candW slW (by decide)).1⟩

/-- C7: for every pool accepted by the selector, the emitted shortlist
contains no two entries sharing a product identifier and no two entries
sharing a url. -/
theorem selector_no_duplicates (pool : List Candidate) (top : Candidate)
    (sl : List Recommendation) (h : selectTop pool = some (top, sl)) :
    (sl.map Recommendation.product).Nodup ∧ (sl.map Recommendation.url).Nodup := by
  obtain ⟨rest, hdd, hsl⟩ := selectTop_eq h
  constructor
  · obtain ⟨sub, hs, he⟩ := shortGoSub rest [top.toRec] [top.url]
    rw [hsl, he]
    have hmap : (([top.toRec] ++ sub.map Candidate.toRec).map Recommendation.product)
        = (top :: sub).map Candidate.product := by
      simp [Candidate.toRec, Function.comp]
    rw [hmap]
    have hnd := dedupGo_products_nodup [] (sortRecs pool)
    rw [show dedupGo [] (sortRecs pool) = dedupByProduct (sortRecs pool) from rfl,
      hdd] at hnd
    exact List.Nodup.sublist (List.Sublist.map _ (hs.cons₂ top)) hnd
  · rw [hsl]
    exact shortGo_urls_nodup rest [top.toRec] [top.url] (by simp)
      (by simp [Candidate.toRec])

/-- C7 witness: no duplicate products or urls in the concrete shortlist. -/
theorem selector_no_duplicates_witness :
    (slW.map Recommendation.product).Nodup ∧ (slW.map Recommendation.url).Nodup :=
  selector_no_duplicates poolW candW slW (by decide)

/-- C8: the shortlist's length is `min 5 (number of distinct urls after
product dedup)`, its first element is the top match, and the top match's
score is the maximum score of the deduplicated pool. -/
theorem shortlist_length_and_top (pool : List Candidate) (top : Candidate)
    (sl : List Recommendation) (h : selectTop pool = some (top, sl)) :
    sl.length =
      min 5 (((dedupByProduct (sortRecs pool)).map Candidate.url).toFinset.card) ∧
    sl.head? = some top.toRec ∧
    top ∈ dedupByProduct (sortRecs pool) ∧
    (∀ c ∈ dedupByProduct (sortRecs pool), c.score ≤ top.score) := by
  obtain ⟨rest, hdd, hsl⟩ := selectTop_eq h
  refine ⟨?_, ?_, ?_, ?_⟩
  · rw [hsl, shortGo_length rest [top.toRec] [top.url] (by simp), hdd]
    have h1 : ((top :: rest).map Candidate.url).toFinset
        = insert top.url ((rest.map Candidate.url).toFinset) := by simp
    have hins : insert top.url ((rest.map Candidate.url).toFinset)
        = insert top.url
            ((rest.map Candidate.url).toFinset \ ({top.url} : Finset String)) := by
      ext x
      by_cases hx : x = top.url <;> simp [hx]
    have hseenF : ([top.url] : List String).toFinset = ({top.url} : Finset String) := by
      simp
    rw [h1, hins, Finset.card_insert_of_not_mem (by simp), hseenF]
    simp only [List.length_cons, List.length_nil]
    omega
  · obtain ⟨sub, _, he⟩ := shortGoSub rest [top.toRec] [top.url]
    rw [hsl, he]
    rfl
  · rw [hdd]
    exact List.mem_cons_self top rest
  · have hpw : (dedupByProduct (sortRecs pool)).Pairwise sortRel :=
      List.Pairwise.sublist (dedupGo_sublist [] (sortRecs pool)) (sortRecs_sorted pool)
    rw [hdd] at hpw
    intro c hc
    rw [hdd] at hc
    rcases List.mem_cons.mp hc with rfl | hc'
    · exact le_rfl
    · rcases (List.pairwise_cons.mp hpw).1 c hc' with hlt | ⟨heq, _⟩
      · exact le_of_lt hlt
      · exact le_of_eq heq

/-- C8 witness: the shortlist facts on the concrete pool `poolW`. -/
theorem shortlist_length_and_top_witness :
    slW.length =
      min 5 (((dedupByProduct (sortRecs poolW)).map Candidate.url).toFinset.card) ∧
    slW.head? = some candW.toRec := by
  have h := shortlist_length_and_top poolW candW slW (by decide)
  exact ⟨h.1, h.2.1⟩

/-- C10 witness: the amended status mapping at concrete environments. -/
theorem http_status_mapping_witness :
    get_recommendations_v70 envEmpty "u1" = Except.error 404 ∧
    get_recommendations_v70 envNoVec "u1" = Except.error 400 ∧
    get_recommendations_v70 envNoAds "u1" = Except.error 404 ∧
    get_recommendations envEmpty "u1" = Except.error 500 ∧
    get_recommendations envNoVec "u1" = Except.error 500 ∧
    get_recommendations envNoAds "u1" = Except.error 500 := by
  obtain ⟨h1, h2, h3, h4, h5, h6, _⟩ := http_status_mapping
  exact ⟨h1 envEmpty "u1" (by decide), h2 envNoVec "u1" (by decide) (by decide),
    h3 envNoAds "u1" (by decide) (by decide) (by decide), h4 envEmpty "u1" (by decide),
    h5 envNoVec "u1" (by decide),
    h6 envNoAds "u1" (by decide) (by decide) (by decide)⟩

end CustomerRec
